import Mathlib

/-!
Shallow embedding of `src/stats.rs` (crate `peanutbutter`): a per-project
budget tracker with time-bucketed spend accumulation and hysteresis.

Modelling choices:
* `quanta::Instant` and `Duration` become `Int` (nanosecond counts; `Int`
  keeps subtraction `now - budgeting_window` total, as on real instants
  where no underflow occurs).
* spend amounts (`f64` in the source) become `Rat`, following the spec's
  description of spend as non-negative real numbers; the claims under
  study are about comparison and summation structure, not float rounding.
* the ambient clock becomes an explicit `rawNow : Int` argument; the
  source obtains both the bucket key and the aggregation time from
  `self.config.truncated_now()`.
* `VecDeque<(Instant, f64)>` becomes `List (Int × Rat)`, front first
  (newest-first); `push_front` is `cons`, `pop_back` is `dropLast`.
-/

/-- Configuration governing budgeting and bucketing, from `BudgetingConfig`
(`config.rs`); only the fields read by `stats.rs` are modelled. -/
structure BudgetingConfig where
  bucket_width : Int
  num_buckets : Nat
  budgeting_window : Int
  backoff_duration : Int
  allowed_budget : Rat
deriving DecidableEq

/-- Modelled from the spec: `BudgetingConfig::truncated_now` lives in
`config.rs`, which is not among the sources. Per the spec, truncation maps
raw "now" values onto a discrete grid spaced by `bucket_width`. -/
def BudgetingConfig.truncated_now (cfg : BudgetingConfig) (rawNow : Int) : Int :=
  (rawNow / cfg.bucket_width) * cfg.bucket_width

/-- Per-project budget tracking state (`ProjectStats` in `stats.rs`).
The `config` field of the Rust struct is passed explicitly to each
operation instead of being stored. -/
structure ProjectStats where
  exceeds_budget : Bool
  backoff_deadline : Option Int
  budget_buckets : List (Int × Rat)
deriving DecidableEq

/-- `ProjectStats::new`: not over budget, no backoff, no buckets. -/
def ProjectStats.new : ProjectStats :=
  { exceeds_budget := false, backoff_deadline := none, budget_buckets := [] }

/-- The windowed sum computed in `update_aggregated_state`:
`total_spent_budget = buckets.iter().filter_map(|b| (b.0 >= lowest_time).then_some(b.1)).sum()`
with `lowest_time = now - budgeting_window`. -/
def total_spent_budget (cfg : BudgetingConfig) (now : Int)
    (buckets : List (Int × Rat)) : Rat :=
  (buckets.filterMap fun b =>
    if b.1 ≥ now - cfg.budgeting_window then some b.2 else none).sum

/-- The tail of `ProjectStats::update_aggregated_state` after the backoff
guard: recompute the windowed sum, compare against `allowed_budget`, and on
a state flip store the new value and arm `backoff_deadline = now + backoff_duration`. -/
def apply_fresh_state (cfg : BudgetingConfig) (now : Int) (s : ProjectStats) :
    Bool × ProjectStats :=
  let total := total_spent_budget cfg now s.budget_buckets
  let ex : Bool := decide (total > cfg.allowed_budget)
  if s.exceeds_budget ≠ ex then
    (ex, { s with exceeds_budget := ex,
                  backoff_deadline := some (now + cfg.backoff_duration) })
  else
    (ex, s)

/-- `ProjectStats::update_aggregated_state`: while a backoff deadline is in
the future, return the stored flag unchanged; a passed deadline is cleared;
otherwise recompute freshly. Returns (result, updated state). -/
def update_aggregated_state (cfg : BudgetingConfig) (now : Int)
    (s : ProjectStats) : Bool × ProjectStats :=
  match s.backoff_deadline with
  | some deadline =>
      if deadline > now then
        (s.exceeds_budget, s)
      else
        apply_fresh_state cfg now { s with backoff_deadline := none }
  | none => apply_fresh_state cfg now s

/-- The bucket-maintenance half of `ProjectStats::record_budget_spend`
(given `now = config.truncated_now()`): merge into the front bucket when it
is still current, else push a new front bucket, evicting the back bucket if
the capacity `num_buckets` is already reached. -/
def apply_bucket_update (cfg : BudgetingConfig) (now : Int)
    (spent_budget : Rat) (s : ProjectStats) : ProjectStats :=
  match s.budget_buckets with
  | (t, amt) :: rest =>
      if t ≥ now then
        { s with budget_buckets := (t, amt + spent_budget) :: rest }
      else
        let buckets :=
          if s.budget_buckets.length ≥ cfg.num_buckets then
            s.budget_buckets.dropLast
          else
            s.budget_buckets
        { s with budget_buckets := (now, spent_budget) :: buckets }
  | [] => { s with budget_buckets := [(now, spent_budget)] }

/-- `ProjectStats::record_budget_spend`: obtain `now = config.truncated_now()`,
update the buckets, then update the aggregated state at that same `now`. -/
def record_budget_spend (cfg : BudgetingConfig) (rawNow : Int)
    (spent_budget : Rat) (s : ProjectStats) : Bool × ProjectStats :=
  let now := cfg.truncated_now rawNow
  update_aggregated_state cfg now (apply_bucket_update cfg now spent_budget s)

/-- `ProjectStats::exceeds_budget` (the public check entry point):
`update_aggregated_state(config.truncated_now())`. -/
def exceeds_budget (cfg : BudgetingConfig) (rawNow : Int) (s : ProjectStats) :
    Bool × ProjectStats :=
  update_aggregated_state cfg (cfg.truncated_now rawNow) s

/-- `ProjectStats::is_stale` exactly as written in `stats.rs`: false while a
backoff deadline is in the future; otherwise
`budget_buckets.iter().any(|b| b.0 >= lowest_time)` with
`lowest_time = now - budgeting_window`. -/
def is_stale (cfg : BudgetingConfig) (s : ProjectStats) (now : Int) : Bool :=
  match s.backoff_deadline with
  | some deadline =>
      if deadline > now then
        false
      else
        s.budget_buckets.any fun b => decide (b.1 ≥ now - cfg.budgeting_window)
  | none =>
      s.budget_buckets.any fun b => decide (b.1 ≥ now - cfg.budgeting_window)

/-- One externally visible call on a tracker, tagged with the raw clock
reading at which it happens. -/
inductive Op where
  | record (rawNow : Int) (amount : Rat)
  | query (rawNow : Int)
deriving DecidableEq

/-- The truncated time at which an operation acts (the `now` that
`stats.rs` obtains from `config.truncated_now()`). -/
def Op.time (cfg : BudgetingConfig) : Op → Int
  | .record rawNow _ => cfg.truncated_now rawNow
  | .query rawNow => cfg.truncated_now rawNow

/-- Execute one operation against a tracker state. -/
def step (cfg : BudgetingConfig) (s : ProjectStats) : Op → Bool × ProjectStats
  | .record rawNow amount => record_budget_spend cfg rawNow amount s
  | .query rawNow => exceeds_budget cfg rawNow s

/-- Execute a sequence of operations, threading the tracker state. -/
def run (cfg : BudgetingConfig) (s : ProjectStats) : List Op → ProjectStats
  | [] => s
  | op :: ops => run cfg (step cfg s op).2 ops

/-! ### Basic facts about the aggregation routine -/

theorem apply_fresh_state_of_eq (cfg : BudgetingConfig) (now : Int) (s : ProjectStats)
    (h : s.exceeds_budget
          = decide (total_spent_budget cfg now s.budget_buckets > cfg.allowed_budget)) :
    apply_fresh_state cfg now s = (s.exceeds_budget, s) := by
  simp [apply_fresh_state, h]

theorem apply_fresh_state_of_ne (cfg : BudgetingConfig) (now : Int) (s : ProjectStats)
    (h : s.exceeds_budget
          ≠ decide (total_spent_budget cfg now s.budget_buckets > cfg.allowed_budget)) :
    apply_fresh_state cfg now s
      = (decide (total_spent_budget cfg now s.budget_buckets > cfg.allowed_budget),
         { s with
            exceeds_budget :=
              decide (total_spent_budget cfg now s.budget_buckets > cfg.allowed_budget),
            backoff_deadline := some (now + cfg.backoff_duration) }) := by
  simp [apply_fresh_state, h]

theorem apply_fresh_state_fst (cfg : BudgetingConfig) (now : Int) (s : ProjectStats) :
    (apply_fresh_state cfg now s).1
      = decide (total_spent_budget cfg now s.budget_buckets > cfg.allowed_budget) := by
  by_cases h : s.exceeds_budget
      = decide (total_spent_budget cfg now s.budget_buckets > cfg.allowed_budget)
  · rw [apply_fresh_state_of_eq cfg now s h, h]
  · rw [apply_fresh_state_of_ne cfg now s h]

theorem apply_fresh_state_buckets (cfg : BudgetingConfig) (now : Int) (s : ProjectStats) :
    (apply_fresh_state cfg now s).2.budget_buckets = s.budget_buckets := by
  by_cases h : s.exceeds_budget
      = decide (total_spent_budget cfg now s.budget_buckets > cfg.allowed_budget)
  · rw [apply_fresh_state_of_eq cfg now s h]
  · rw [apply_fresh_state_of_ne cfg now s h]

theorem update_aggregated_state_buckets (cfg : BudgetingConfig) (now : Int)
    (s : ProjectStats) :
    (update_aggregated_state cfg now s).2.budget_buckets = s.budget_buckets := by
  obtain ⟨ex, bd, bk⟩ := s
  cases bd with
  | none => exact apply_fresh_state_buckets cfg now _
  | some d =>
      by_cases hd : d > now
      · simp [update_aggregated_state, hd]
      · simp only [update_aggregated_state, if_neg hd]
        exact apply_fresh_state_buckets cfg now _

theorem update_backoff_active (cfg : BudgetingConfig) (now : Int) (s : ProjectStats)
    (d : Int) (hd : s.backoff_deadline = some d) (hfut : now < d) :
    update_aggregated_state cfg now s = (s.exceeds_budget, s) := by
  obtain ⟨ex, bd, bk⟩ := s
  cases hd
  simp [update_aggregated_state, hfut]

theorem update_no_backoff (cfg : BudgetingConfig) (now : Int) (s : ProjectStats)
    (h : ∀ d, s.backoff_deadline = some d → d ≤ now) :
    update_aggregated_state cfg now s
      = apply_fresh_state cfg now { s with backoff_deadline := none } := by
  obtain ⟨ex, bd, bk⟩ := s
  cases bd with
  | none => rfl
  | some d => simp [update_aggregated_state, not_lt.mpr (h d rfl)]

theorem update_fst_no_backoff (cfg : BudgetingConfig) (now : Int) (s : ProjectStats)
    (h : ∀ d, s.backoff_deadline = some d → d ≤ now) :
    (update_aggregated_state cfg now s).1
      = decide (total_spent_budget cfg now s.budget_buckets > cfg.allowed_budget) := by
  rw [update_no_backoff cfg now s h, apply_fresh_state_fst]

theorem update_flip_result (cfg : BudgetingConfig) (now : Int) (s : ProjectStats)
    (h : (update_aggregated_state cfg now s).1 ≠ s.exceeds_budget) :
    (update_aggregated_state cfg now s).2
      = { s with exceeds_budget := (update_aggregated_state cfg now s).1,
                 backoff_deadline := some (now + cfg.backoff_duration) } := by
  have hnb : ∀ d, s.backoff_deadline = some d → d ≤ now := by
    intro d hd
    by_contra hlt
    rw [update_backoff_active cfg now s d hd (lt_of_not_le hlt)] at h
    exact h rfl
  obtain ⟨ex, bd, bk⟩ := s
  rw [update_no_backoff cfg now _ hnb] at h ⊢
  by_cases hex : ex = decide (total_spent_budget cfg now bk > cfg.allowed_budget)
  · rw [apply_fresh_state_of_eq cfg now _ hex] at h
    exact absurd rfl h
  · rw [apply_fresh_state_of_ne cfg now _ hex]

theorem update_noflip_result (cfg : BudgetingConfig) (now : Int) (s : ProjectStats)
    (hnb : ∀ d, s.backoff_deadline = some d → d ≤ now)
    (h : (update_aggregated_state cfg now s).1 = s.exceeds_budget) :
    (update_aggregated_state cfg now s).2 = { s with backoff_deadline := none } := by
  obtain ⟨ex, bd, bk⟩ := s
  rw [update_no_backoff cfg now _ hnb] at h ⊢
  by_cases hex : ex = decide (total_spent_budget cfg now bk > cfg.allowed_budget)
  · rw [apply_fresh_state_of_eq cfg now _ hex]
  · rw [apply_fresh_state_of_ne cfg now _ hex] at h
    exact absurd h.symm hex

/-! ### Claim theorems: aggregation-level properties -/

/-- C10: `exceeds_budget` (the check entry point) and the shared
`update_aggregated_state` routine never modify the bucket sequence — the
buckets after the call are identical to before; only `record_budget_spend`
changes the buckets, and `is_stale` (which takes the state immutably and
returns only a `Bool`) changes no tracker state at all. -/
theorem check_preserves_buckets (cfg : BudgetingConfig) (rawNow now : Int)
    (s : ProjectStats) :
    (exceeds_budget cfg rawNow s).2.budget_buckets = s.budget_buckets ∧
    (update_aggregated_state cfg now s).2.budget_buckets = s.budget_buckets :=
  ⟨update_aggregated_state_buckets cfg (cfg.truncated_now rawNow) s,
   update_aggregated_state_buckets cfg now s⟩

/-- C3: when no backoff is active, the computed over-budget verdict equals
`window sum > allowed_budget` (strict comparison); in particular when the
in-window sum equals `allowed_budget` exactly, the verdict is false. -/
theorem threshold_exactness (cfg : BudgetingConfig) (now : Int) (s : ProjectStats)
    (h : ∀ d, s.backoff_deadline = some d → d ≤ now) :
    (update_aggregated_state cfg now s).1
      = decide (total_spent_budget cfg now s.budget_buckets > cfg.allowed_budget) ∧
    (total_spent_budget cfg now s.budget_buckets = cfg.allowed_budget →
      (update_aggregated_state cfg now s).1 = false) := by
  refine ⟨update_fst_no_backoff cfg now s h, fun he => ?_⟩
  rw [update_fst_no_backoff cfg now s h, he]
  simp

def cfg3 : BudgetingConfig :=
  { bucket_width := 1, num_buckets := 10, budgeting_window := 10,
    backoff_duration := 7, allowed_budget := 100 }

def s3 : ProjectStats :=
  { exceeds_budget := false, backoff_deadline := none,
    budget_buckets := [(5, 60), (0, 40)] }

theorem threshold_exactness_witness :
    (update_aggregated_state cfg3 10 s3).1 = false :=
  (threshold_exactness cfg3 10 s3 (by simp [s3])).2
    (by norm_num [total_spent_budget, cfg3, s3, List.filterMap_cons])

/-- C7: after an aggregation step that actually recomputes (no active
backoff), a changed verdict is stored and arms
`backoff_deadline = now + backoff_duration`; an unchanged verdict arms no
deadline and leaves `backoff_deadline` at `none`. -/
theorem flip_arms_backoff (cfg : BudgetingConfig) (now : Int) (s : ProjectStats)
    (h : ∀ d, s.backoff_deadline = some d → d ≤ now) :
    ((update_aggregated_state cfg now s).1 ≠ s.exceeds_budget →
        (update_aggregated_state cfg now s).2.exceeds_budget
            = (update_aggregated_state cfg now s).1 ∧
        (update_aggregated_state cfg now s).2.backoff_deadline
            = some (now + cfg.backoff_duration)) ∧
    ((update_aggregated_state cfg now s).1 = s.exceeds_budget →
        (update_aggregated_state cfg now s).2.backoff_deadline = none ∧
        (update_aggregated_state cfg now s).2.exceeds_budget = s.exceeds_budget) := by
  constructor
  · intro hne
    rw [update_flip_result cfg now s hne]
    exact ⟨rfl, rfl⟩
  · intro heq
    rw [update_noflip_result cfg now s h heq]
    exact ⟨rfl, rfl⟩

def cfg7 : BudgetingConfig :=
  { bucket_width := 1, num_buckets := 10, budgeting_window := 10,
    backoff_duration := 7, allowed_budget := 100 }

def s7 : ProjectStats :=
  { exceeds_budget := false, backoff_deadline := none,
    budget_buckets := [(0, 150)] }

theorem flip_arms_backoff_witness :
    (update_aggregated_state cfg7 5 s7).2.exceeds_budget
        = (update_aggregated_state cfg7 5 s7).1 ∧
    (update_aggregated_state cfg7 5 s7).2.backoff_deadline = some 12 :=
  (flip_arms_backoff cfg7 5 s7 (by simp [s7])).1
    (by norm_num [update_aggregated_state, apply_fresh_state, total_spent_budget,
                  cfg7, s7, List.filterMap_cons])

/-- C9: a backoff deadline that is set but no longer in the future is
cleared, and the call proceeds to a fresh recomputation of the window sum —
the result is exactly as if no deadline were set, not the stale stored
value; afterwards the deadline is `none` unless a flip re-armed it. -/
theorem passed_deadline_cleared (cfg : BudgetingConfig) (now d : Int)
    (s : ProjectStats) (hd : s.backoff_deadline = some d) (hpast : d ≤ now) :
    update_aggregated_state cfg now s
        = update_aggregated_state cfg now { s with backoff_deadline := none } ∧
    (update_aggregated_state cfg now s).1
        = decide (total_spent_budget cfg now s.budget_buckets > cfg.allowed_budget) ∧
    ((update_aggregated_state cfg now s).2.backoff_deadline = none ∨
      (update_aggregated_state cfg now s).2.backoff_deadline
          = some (now + cfg.backoff_duration)) := by
  have hnb : ∀ d', s.backoff_deadline = some d' → d' ≤ now := by
    intro d' hd'
    rw [hd] at hd'
    injection hd' with h
    exact h ▸ hpast
  refine ⟨?_, update_fst_no_backoff cfg now s hnb, ?_⟩
  · rw [update_no_backoff cfg now s hnb, update_no_backoff cfg now _ (by simp)]
  · by_cases hne : (update_aggregated_state cfg now s).1 = s.exceeds_budget
    · left
      rw [update_noflip_result cfg now s hnb hne]
    · right
      rw [update_flip_result cfg now s hne]

def cfg9 : BudgetingConfig :=
  { bucket_width := 1, num_buckets := 10, budgeting_window := 10,
    backoff_duration := 7, allowed_budget := 100 }

def s9 : ProjectStats :=
  { exceeds_budget := false, backoff_deadline := some 3,
    budget_buckets := [(0, 150)] }

theorem passed_deadline_cleared_witness :
    (update_aggregated_state cfg9 5 s9).1
        = decide (total_spent_budget cfg9 5 s9.budget_buckets > cfg9.allowed_budget) :=
  (passed_deadline_cleared cfg9 5 3 s9 rfl (by decide)).2.1

/-! ### C1: the staleness check -/

def cfg1 : BudgetingConfig :=
  { bucket_width := 1, num_buckets := 10, budgeting_window := 10,
    backoff_duration := 7, allowed_budget := 100 }

/-- C1: the code contradicts the claim and its own doc comment
("Checks whether all of the buckets are outside the current
`budgeting_window`"). With no backoff pending, a tracker holding a single
bucket timestamped `100` — inside the budgeting window at `now = 100` — is
reported stale, while a tracker holding no buckets at all is reported not
stale: `is_stale` returns whether SOME bucket is inside the window, the
negation of the documented meaning. -/
theorem is_stale_inverted :
    is_stale cfg1 { exceeds_budget := false, backoff_deadline := none,
                    budget_buckets := [(100, 1)] } 100 = true ∧
    is_stale cfg1 { exceeds_budget := false, backoff_deadline := none,
                    budget_buckets := [] } 100 = false := by
  constructor <;> norm_num [is_stale, cfg1]

/-! ### C5: which buckets the aggregation sums -/

theorem total_spent_budget_cons (cfg : BudgetingConfig) (now : Int)
    (b : Int × Rat) (bs : List (Int × Rat)) :
    total_spent_budget cfg now (b :: bs)
      = (if b.1 ≥ now - cfg.budgeting_window then b.2 else 0)
          + total_spent_budget cfg now bs := by
  by_cases hb : b.1 ≥ now - cfg.budgeting_window
  · simp only [total_spent_budget, List.filterMap_cons, if_pos hb, List.sum_cons]
  · simp only [total_spent_budget, List.filterMap_cons, if_neg hb, zero_add]

theorem total_spent_budget_eq_filter (cfg : BudgetingConfig) (now : Int)
    (bs : List (Int × Rat)) :
    total_spent_budget cfg now bs
      = ((bs.filter fun b => decide (b.1 ≥ now - cfg.budgeting_window)).map
          fun b => b.2).sum := by
  induction bs with
  | nil => rfl
  | cons b bs ih =>
      rw [total_spent_budget_cons, ih, List.filter_cons]
      by_cases hb : b.1 ≥ now - cfg.budgeting_window
      · rw [if_pos hb, if_pos (decide_eq_true hb), List.map_cons, List.sum_cons]
      · rw [if_neg hb, if_neg (fun hc => hb (of_decide_eq_true hc)), zero_add]

/-- C5: with no active backoff, the verdict is computed from the sum of
exactly those buckets whose timestamp is `≥ now - budgeting_window`
(inclusive lower bound: a bucket exactly at the window start contributes its
full amount, a strictly older bucket contributes nothing), and the
computation removes no bucket from storage. -/
theorem window_sum_exact (cfg : BudgetingConfig) (now : Int) (s : ProjectStats)
    (h : ∀ d, s.backoff_deadline = some d → d ≤ now) :
    (update_aggregated_state cfg now s).1
      = decide (((s.budget_buckets.filter
            fun b => decide (b.1 ≥ now - cfg.budgeting_window)).map
              fun b => b.2).sum > cfg.allowed_budget) ∧
    (update_aggregated_state cfg now s).2.budget_buckets = s.budget_buckets ∧
    (∀ (a : Rat) (bs : List (Int × Rat)),
        total_spent_budget cfg now ((now - cfg.budgeting_window, a) :: bs)
          = a + total_spent_budget cfg now bs) ∧
    (∀ (t : Int) (a : Rat) (bs : List (Int × Rat)), t < now - cfg.budgeting_window →
        total_spent_budget cfg now ((t, a) :: bs) = total_spent_budget cfg now bs) := by
  refine ⟨?_, update_aggregated_state_buckets cfg now s, ?_, ?_⟩
  · rw [update_fst_no_backoff cfg now s h, total_spent_budget_eq_filter]
  · intro a bs
    rw [total_spent_budget_cons, if_pos (le_refl (now - cfg.budgeting_window))]
  · intro t a bs ht
    rw [total_spent_budget_cons, if_neg (not_le.mpr ht), zero_add]

def cfg5 : BudgetingConfig :=
  { bucket_width := 1, num_buckets := 10, budgeting_window := 10,
    backoff_duration := 7, allowed_budget := 100 }

def s5 : ProjectStats :=
  { exceeds_budget := false, backoff_deadline := none,
    budget_buckets := [(3, 60), (0, 40)] }

theorem window_sum_exact_witness :
    total_spent_budget cfg5 10 (((10 : Int) - cfg5.budgeting_window, (40 : Rat))
        :: s5.budget_buckets)
      = 40 + total_spent_budget cfg5 10 s5.budget_buckets :=
  (window_sum_exact cfg5 10 s5 (by simp [s5])).2.2.1 40 s5.budget_buckets

/-! ### C4: bucket capacity bound -/

theorem apply_bucket_update_length (cfg : BudgetingConfig) (now : Int) (a : Rat)
    (s : ProjectStats) (h1 : 1 ≤ cfg.num_buckets)
    (hs : s.budget_buckets.length ≤ cfg.num_buckets) :
    (apply_bucket_update cfg now a s).budget_buckets.length ≤ cfg.num_buckets := by
  obtain ⟨ex, bd, bk⟩ := s
  cases bk with
  | nil => simpa [apply_bucket_update] using h1
  | cons b rest =>
      obtain ⟨t, amt⟩ := b
      by_cases ht : t ≥ now
      · simpa [apply_bucket_update, ht] using hs
      · simp only [apply_bucket_update, if_neg ht, List.length_cons] at hs ⊢
        by_cases hlen : rest.length + 1 ≥ cfg.num_buckets
        · rw [if_pos hlen]
          simp only [List.length_cons, List.length_dropLast]
          omega
        · rw [if_neg hlen]
          simp only [List.length_cons]
          omega

theorem step_length (cfg : BudgetingConfig) (s : ProjectStats) (op : Op)
    (h1 : 1 ≤ cfg.num_buckets)
    (hs : s.budget_buckets.length ≤ cfg.num_buckets) :
    (step cfg s op).2.budget_buckets.length ≤ cfg.num_buckets := by
  cases op with
  | record rawNow a =>
      show (record_budget_spend cfg rawNow a s).2.budget_buckets.length ≤ _
      unfold record_budget_spend
      rw [update_aggregated_state_buckets]
      exact apply_bucket_update_length cfg _ a s h1 hs
  | query rawNow =>
      show (exceeds_budget cfg rawNow s).2.budget_buckets.length ≤ _
      unfold exceeds_budget
      rw [update_aggregated_state_buckets]
      exact hs

theorem run_length (cfg : BudgetingConfig) (ops : List Op) (s : ProjectStats)
    (h1 : 1 ≤ cfg.num_buckets)
    (hs : s.budget_buckets.length ≤ cfg.num_buckets) :
    (run cfg s ops).budget_buckets.length ≤ cfg.num_buckets := by
  induction ops generalizing s with
  | nil => exact hs
  | cons op ops ih => exact ih (step cfg s op).2 (step_length cfg s op h1 hs)

/-- C4: starting from a fresh tracker, no sequence of record/check calls
ever leaves more than `num_buckets` buckets (for `num_buckets ≥ 1`); when
pushing a new front bucket while the capacity is already reached, the
oldest (back) bucket is dropped. -/
theorem bucket_capacity_bound (cfg : BudgetingConfig) (ops : List Op)
    (h1 : 1 ≤ cfg.num_buckets) :
    (run cfg ProjectStats.new ops).budget_buckets.length ≤ cfg.num_buckets ∧
    (∀ (now : Int) (a : Rat) (s : ProjectStats) (t : Int) (amt : Rat)
        (rest : List (Int × Rat)),
        s.budget_buckets = (t, amt) :: rest → t < now →
        cfg.num_buckets ≤ s.budget_buckets.length →
        (apply_bucket_update cfg now a s).budget_buckets
          = (now, a) :: ((t, amt) :: rest).dropLast) := by
  constructor
  · exact run_length cfg ops ProjectStats.new h1 (by simp [ProjectStats.new])
  · intro now a s t amt rest hbk ht hlen
    obtain ⟨ex, bd, bk⟩ := s
    simp only at hbk
    subst hbk
    simp only [List.length_cons] at hlen
    simp only [apply_bucket_update, if_neg (not_le.mpr ht), List.length_cons,
               if_pos hlen]

def cfg4 : BudgetingConfig :=
  { bucket_width := 1, num_buckets := 2, budgeting_window := 10,
    backoff_duration := 7, allowed_budget := 100 }

def ops4 : List Op :=
  [.record 0 1, .record 10 2, .record 20 3, .query 21]

theorem bucket_capacity_bound_witness :
    (run cfg4 ProjectStats.new ops4).budget_buckets.length ≤ cfg4.num_buckets :=
  (bucket_capacity_bound cfg4 ops4 (by decide)).1

/-! ### C6: strict newest-first ordering of the buckets -/

/-- Strict newest-first ordering of the bucket timestamps. -/
def BucketsSorted (bs : List (Int × Rat)) : Prop :=
  bs.Chain' fun a b => b.1 < a.1

theorem apply_bucket_update_sorted (cfg : BudgetingConfig) (now : Int) (a : Rat)
    (s : ProjectStats) (h : BucketsSorted s.budget_buckets) :
    BucketsSorted (apply_bucket_update cfg now a s).budget_buckets := by
  obtain ⟨ex, bd, bk⟩ := s
  cases bk with
  | nil => simp [apply_bucket_update, BucketsSorted]
  | cons b rest =>
      obtain ⟨t, amt⟩ := b
      simp only [BucketsSorted] at h
      by_cases ht : t ≥ now
      · simp only [apply_bucket_update, if_pos ht, BucketsSorted]
        rw [List.chain'_cons'] at h ⊢
        exact ⟨h.1, h.2⟩
      · simp only [apply_bucket_update, if_neg ht, BucketsSorted, List.length_cons]
        by_cases hlen : rest.length + 1 ≥ cfg.num_buckets
        · rw [if_pos hlen, List.chain'_cons']
          refine ⟨?_, h.init⟩
          intro y hy
          cases rest with
          | nil => simp at hy
          | cons r rs =>
              rw [List.dropLast_cons₂, List.head?_cons] at hy
              simp only [Option.mem_def, Option.some.injEq] at hy
              subst hy
              exact lt_of_not_ge ht
        · rw [if_neg hlen, List.chain'_cons']
          refine ⟨?_, h⟩
          intro y hy
          rw [List.head?_cons] at hy
          simp only [Option.mem_def, Option.some.injEq] at hy
          subst hy
          exact lt_of_not_ge ht

theorem step_sorted (cfg : BudgetingConfig) (s : ProjectStats) (op : Op)
    (h : BucketsSorted s.budget_buckets) :
    BucketsSorted (step cfg s op).2.budget_buckets := by
  cases op with
  | record rawNow a =>
      show BucketsSorted (record_budget_spend cfg rawNow a s).2.budget_buckets
      unfold record_budget_spend
      rw [update_aggregated_state_buckets]
      exact apply_bucket_update_sorted cfg _ a s h
  | query rawNow =>
      show BucketsSorted (exceeds_budget cfg rawNow s).2.budget_buckets
      unfold exceeds_budget
      rw [update_aggregated_state_buckets]
      exact h

theorem run_sorted (cfg : BudgetingConfig) (ops : List Op) (s : ProjectStats)
    (h : BucketsSorted s.budget_buckets) :
    BucketsSorted (run cfg s ops).budget_buckets := by
  induction ops generalizing s with
  | nil => exact h
  | cons op ops ih => exact ih (step cfg s op).2 (step_sorted cfg s op h)

theorem bucketsSorted_pairwise (bs : List (Int × Rat)) (h : BucketsSorted bs) :
    bs.Pairwise fun a b => b.1 < a.1 := by
  haveI : IsTrans (Int × Rat) fun a b => b.1 < a.1 :=
    ⟨fun a b c h1 h2 => lt_trans h2 h1⟩
  exact List.chain'_iff_pairwise.mp h

theorem apply_bucket_update_merge (cfg : BudgetingConfig) (now : Int) (a : Rat)
    (s : ProjectStats) (t : Int) (amt : Rat) (rest : List (Int × Rat))
    (hbk : s.budget_buckets = (t, amt) :: rest) (ht : t ≥ now) :
    (apply_bucket_update cfg now a s).budget_buckets = (t, amt + a) :: rest := by
  obtain ⟨ex, bd, bk⟩ := s
  simp only at hbk
  subst hbk
  simp only [apply_bucket_update, if_pos ht]

/-- C6: every tracker state reachable from a new tracker has its buckets
strictly sorted by decreasing timestamp, hence no duplicate timestamps;
record_spend merges a spend into the existing newest bucket in place
(adding the amount, creating no new bucket) whenever the newest bucket's
timestamp is not older than the truncated now, so two spends within the
same grid cell never create two buckets. -/
theorem buckets_sorted_no_dup (cfg : BudgetingConfig) (ops : List Op) :
    BucketsSorted (run cfg ProjectStats.new ops).budget_buckets ∧
    (run cfg ProjectStats.new ops).budget_buckets.Pairwise (fun a b => a.1 ≠ b.1) ∧
    (∀ (now : Int) (a : Rat) (s : ProjectStats) (t : Int) (amt : Rat)
        (rest : List (Int × Rat)),
        s.budget_buckets = (t, amt) :: rest → t ≥ now →
        (apply_bucket_update cfg now a s).budget_buckets = (t, amt + a) :: rest) := by
  have hs := run_sorted cfg ops ProjectStats.new
    (by simp [BucketsSorted, ProjectStats.new])
  exact ⟨hs, (bucketsSorted_pairwise _ hs).imp fun hlt => ne_of_gt hlt,
    fun now a s t amt rest hbk ht =>
      apply_bucket_update_merge cfg now a s t amt rest hbk ht⟩

def cfg6 : BudgetingConfig :=
  { bucket_width := 1, num_buckets := 3, budgeting_window := 10,
    backoff_duration := 7, allowed_budget := 100 }

def ops6 : List Op := [.record 0 1, .record 2 2, .record 2 3, .query 3]

def s6 : ProjectStats :=
  { exceeds_budget := false, backoff_deadline := none,
    budget_buckets := [(5, 4)] }

theorem buckets_sorted_no_dup_witness :
    BucketsSorted (run cfg6 ProjectStats.new ops6).budget_buckets ∧
    (apply_bucket_update cfg6 5 2 s6).budget_buckets = [(5, 4 + 2)] :=
  ⟨(buckets_sorted_no_dup cfg6 ops6).1,
   (buckets_sorted_no_dup cfg6 ops6).2.2 5 2 s6 5 4 [] rfl (by decide)⟩

/-! ### C2: hysteresis locks the flag for the backoff duration -/

theorem apply_bucket_update_flag (cfg : BudgetingConfig) (now : Int) (a : Rat)
    (s : ProjectStats) :
    (apply_bucket_update cfg now a s).exceeds_budget = s.exceeds_budget ∧
    (apply_bucket_update cfg now a s).backoff_deadline = s.backoff_deadline := by
  obtain ⟨ex, bd, bk⟩ := s
  cases bk with
  | nil => exact ⟨rfl, rfl⟩
  | cons b rest =>
      obtain ⟨t, amt⟩ := b
      constructor <;> (simp only [apply_bucket_update]; split <;> rfl)

theorem step_locked (cfg : BudgetingConfig) (s : ProjectStats) (op : Op) (D : Int)
    (hd : s.backoff_deadline = some D) (hfut : op.time cfg < D) :
    (step cfg s op).1 = s.exceeds_budget ∧
    (step cfg s op).2.exceeds_budget = s.exceeds_budget ∧
    (step cfg s op).2.backoff_deadline = some D := by
  cases op with
  | query rawNow =>
      have h := update_backoff_active cfg (cfg.truncated_now rawNow) s D hd hfut
      simp only [step, exceeds_budget]
      rw [h]
      exact ⟨rfl, rfl, hd⟩
  | record rawNow a =>
      have hb := apply_bucket_update_flag cfg (cfg.truncated_now rawNow) a s
      have hba : (apply_bucket_update cfg (cfg.truncated_now rawNow) a s).backoff_deadline
          = some D := hb.2.trans hd
      have h := update_backoff_active cfg (cfg.truncated_now rawNow) _ D hba hfut
      simp only [step, record_budget_spend]
      rw [h]
      exact ⟨hb.1, hb.1, hba⟩

theorem run_locked (cfg : BudgetingConfig) (ops : List Op) (s : ProjectStats)
    (D : Int) (hd : s.backoff_deadline = some D)
    (hfut : ∀ o ∈ ops, o.time cfg < D) :
    (run cfg s ops).exceeds_budget = s.exceeds_budget := by
  induction ops generalizing s with
  | nil => rfl
  | cons op ops ih =>
      have h1 := step_locked cfg s op D hd (hfut op (by simp))
      have h2 := ih (step cfg s op).2 h1.2.2 fun o ho => hfut o (by simp [ho])
      show (run cfg (step cfg s op).2 ops).exceeds_budget = _
      rw [h2, h1.2.1]

theorem step_flip (cfg : BudgetingConfig) (s : ProjectStats) (op : Op)
    (hflip : (step cfg s op).1 ≠ s.exceeds_budget) :
    (step cfg s op).2.exceeds_budget = (step cfg s op).1 ∧
    (step cfg s op).2.backoff_deadline
        = some (op.time cfg + cfg.backoff_duration) := by
  cases op with
  | query rawNow =>
      have h := update_flip_result cfg (cfg.truncated_now rawNow) s hflip
      simp only [step, exceeds_budget, Op.time]
      rw [h]
      exact ⟨rfl, rfl⟩
  | record rawNow a =>
      have hb := apply_bucket_update_flag cfg (cfg.truncated_now rawNow) a s
      have hflip' : (record_budget_spend cfg rawNow a s).1
          ≠ (apply_bucket_update cfg (cfg.truncated_now rawNow) a s).exceeds_budget := by
        rw [hb.1]; exact hflip
      have h := update_flip_result cfg (cfg.truncated_now rawNow) _ hflip'
      unfold record_budget_spend at h
      simp only [step, record_budget_spend, Op.time]
      rw [h]
      exact ⟨rfl, rfl⟩

/-- C2: a step that flips the returned/stored flag arms
`backoff_deadline = flip time + backoff_duration`; any further record/check
calls whose (truncated) times lie strictly before that deadline leave the
stored flag unchanged, and while an armed deadline is strictly in the
future the aggregation returns the previous flag with the state untouched —
no recomputation. -/
theorem hysteresis_no_reflip (cfg : BudgetingConfig) (s : ProjectStats)
    (op : Op) (ops : List Op)
    (hflip : (step cfg s op).1 ≠ s.exceeds_budget)
    (hsoon : ∀ o ∈ ops, o.time cfg < op.time cfg + cfg.backoff_duration) :
    (step cfg s op).2.exceeds_budget = (step cfg s op).1 ∧
    (step cfg s op).2.backoff_deadline
        = some (op.time cfg + cfg.backoff_duration) ∧
    (run cfg (step cfg s op).2 ops).exceeds_budget = (step cfg s op).1 ∧
    (∀ (now : Int) (s' : ProjectStats) (d : Int),
        s'.backoff_deadline = some d → now < d →
        update_aggregated_state cfg now s' = (s'.exceeds_budget, s')) := by
  obtain ⟨h1, h2⟩ := step_flip cfg s op hflip
  refine ⟨h1, h2, ?_, fun now s' d hd hlt =>
    update_backoff_active cfg now s' d hd hlt⟩
  rw [run_locked cfg ops (step cfg s op).2 (op.time cfg + cfg.backoff_duration)
        h2 hsoon, h1]

def cfg2 : BudgetingConfig :=
  { bucket_width := 1, num_buckets := 10, budgeting_window := 10,
    backoff_duration := 7, allowed_budget := 100 }

def op2 : Op := .record 0 200

def ops2 : List Op := [.query 3, .record 5 1]

theorem hysteresis_no_reflip_witness :
    (run cfg2 (step cfg2 ProjectStats.new op2).2 ops2).exceeds_budget
        = (step cfg2 ProjectStats.new op2).1 :=
  (hysteresis_no_reflip cfg2 ProjectStats.new op2 ops2
    (by norm_num [step, record_budget_spend, update_aggregated_state,
          apply_fresh_state, apply_bucket_update, total_spent_budget,
          BudgetingConfig.truncated_now, cfg2, op2, ProjectStats.new,
          List.filterMap_cons])
    (by intro o ho
        fin_cases ho <;>
          norm_num [Op.time, BudgetingConfig.truncated_now, cfg2, op2])).2.2.1

/-! ### C8: which clock reading the aggregation uses -/

theorem truncated_now_idem (cfg : BudgetingConfig) (rawNow : Int) :
    cfg.truncated_now (cfg.truncated_now rawNow) = cfg.truncated_now rawNow := by
  unfold BudgetingConfig.truncated_now
  by_cases hw : cfg.bucket_width = 0
  · simp [hw]
  · rw [Int.mul_ediv_cancel _ hw]

def cfg8 : BudgetingConfig :=
  { bucket_width := 5, num_buckets := 10, budgeting_window := 10,
    backoff_duration := 7, allowed_budget := 100 }

def s8 : ProjectStats :=
  { exceeds_budget := false, backoff_deadline := none,
    budget_buckets := [(0, 200)] }

/-- C8 counterexample: at raw time 14 (truncated to 10) recording spend 10
returns `true` — the aggregation window is anchored at the truncated now 10
and still contains the old bucket at 0 — whereas aggregating the
identically updated buckets at the unrounded now 14 yields `false`; so
record_budget_spend does not recompute the aggregated state at the
unrounded current time. -/
theorem record_unrounded_now_cex :
    (record_budget_spend cfg8 14 10 s8).1 = true ∧
    (update_aggregated_state cfg8 14
        (apply_bucket_update cfg8 (cfg8.truncated_now 14) 10 s8)).1 = false := by
  constructor <;>
    norm_num [record_budget_spend, update_aggregated_state, apply_fresh_state,
      apply_bucket_update, total_spent_budget, BudgetingConfig.truncated_now,
      cfg8, s8, List.filterMap_cons]

/-- C8 (amended): record_budget_spend keys the bucket update by the time
truncated to the bucket grid and recomputes the aggregated state at that
SAME truncated now — not the unrounded time — returning the result;
consequently the call depends on the raw clock reading only through its
truncation. -/
theorem record_spend_aggregates_at_truncated_now (cfg : BudgetingConfig)
    (rawNow : Int) (a : Rat) (s : ProjectStats) :
    record_budget_spend cfg rawNow a s
      = update_aggregated_state cfg (cfg.truncated_now rawNow)
          (apply_bucket_update cfg (cfg.truncated_now rawNow) a s) ∧
    record_budget_spend cfg rawNow a s
      = record_budget_spend cfg (cfg.truncated_now rawNow) a s := by
  refine ⟨rfl, ?_⟩
  unfold record_budget_spend
  rw [truncated_now_idem]
